import Mathlib

/-!
Verification of the NBTI promotion-automation engine.

Shallow embedding of the Python services in
`src/backend/nbti_api/src/services/` (`rrr_service.py`,
`step_allocation_service.py`, `eligibility_service.py`,
`rrr_allocation_service.py`) and of `src/models/user.py`.

Modelling conventions:
* Python floats carrying salaries and scores are modelled as `ℚ` (the code
  performs only arithmetic, comparisons and 2-decimal rounding on them).
* Dates and datetimes are modelled as integer day ordinals (`ℤ`); `today`
  and `now` are explicit parameters.
* SQL rows are Lean structures; nullable columns are `Option`; the
  salary-scale table (queried by `(grade, step, is_active=True)`) is a
  function `ℕ → ℕ → Option ℚ`.
* Python truthiness on `Option` values: `none`, `some 0` and `some ""` are
  falsy, matching `if x:` on nullable ints/strings.
* Functions that `raise ValueError` are `Except String`.
-/

namespace NBTI

/-- Python truthiness of a nullable integer column (`None` and `0` falsy). -/
def truthyNat (o : Option ℕ) : Bool := o.getD 0 ≠ 0

/-- Python truthiness of a nullable string column (`None` and `""` falsy). -/
def truthyStr (o : Option String) : Bool :=
  match o with
  | none => false
  | some s => s ≠ ""

/-- `str(x)` for a nullable integer, as Python prints it in f-strings. -/
def optNatStr (o : Option ℕ) : String :=
  match o with
  | some n => toString n
  | none => "None"

/-- Round a rational to the nearest integer, ties to even — the semantics of
Python's builtin `round` on decimal halves. -/
def roundHalfEven (x : ℚ) : ℤ :=
  let f : ℤ := ⌊x⌋
  let r : ℚ := x - f
  if r < 1/2 then f
  else if 1/2 < r then f + 1
  else if f % 2 = 0 then f else f + 1

/-- Python's `round(x, 2)`. -/
def round2 (x : ℚ) : ℚ := (roundHalfEven (x * 100) : ℚ) / 100

/-! ## `rrr_service.calculate_combined_score`

Source: `src/backend/nbti_api/src/services/rrr_service.py`, lines 12–28.
The Python function first tests `if exam_score is None or pms_score is None
or seniority_score is None: return 0.0`, then returns
`round(exam*0.70 + pms*0.20 + seniority*0.10, 2)`. -/

def calculate_combined_score (exam_score pms_score seniority_score : Option ℚ) : ℚ :=
  match exam_score, pms_score, seniority_score with
  | some e, some p, some s => round2 (e * (70/100) + p * (20/100) + s * (10/100))
  | _, _, _ => 0

/-! ## `step_allocation_service` -/

/-- `get_max_step_for_grade`, lines 11–28 of `step_allocation_service.py`. -/
def get_max_step_for_grade (grade : ℕ) : ℕ :=
  if 2 ≤ grade ∧ grade ≤ 9 then 15
  else if 10 ≤ grade ∧ grade ≤ 12 then 11
  else if 13 ≤ grade ∧ grade ≤ 15 then 9
  else 15

/-- The active salary table: `(grade, step) ↦ annual salary` for the row
returned by `SalaryScale.query.filter_by(conraiss_grade, step,
is_active=True).first()` (`get_salary_for_grade_step`, lines 31–51). -/
def SalaryTable : Type := ℕ → ℕ → Option ℚ

/-- One iteration of the `for step in range(1, max_step + 1)` loop of
`calculate_promotion_step`: the first step in the list whose looked-up
salary is truthy (`new_salary and ...`, so present and nonzero) and
strictly exceeds the current salary. -/
def scanSteps (tbl : SalaryTable) (new_grade : ℕ) (current_salary : ℚ) :
    List ℕ → Option (ℕ × ℚ)
  | [] => none
  | s :: rest =>
    match tbl new_grade s with
    | some v => if v ≠ 0 ∧ current_salary < v then some (s, v)
                else scanSteps tbl new_grade current_salary rest
    | none => scanSteps tbl new_grade current_salary rest

/-- The list `[1, 2, ..., n]` scanned by the loop. -/
def stepRange (n : ℕ) : List ℕ := (List.range n).map (· + 1)

/-- `calculate_promotion_step`, lines 54–84 of `step_allocation_service.py`.
Raises (`.error`) when the current salary is missing; otherwise scans steps
`1..max_step` of the new grade for the first strict salary increment, and
falls back to `(max_step, current_salary, new_salary or current_salary)`
when none exists. -/
def calculate_promotion_step (tbl : SalaryTable) (current_grade current_step new_grade : ℕ) :
    Except String (ℕ × ℚ × ℚ) :=
  match tbl current_grade current_step with
  | none => .error ("Could not find salary for Grade " ++ toString current_grade ++
      " Step " ++ toString current_step)
  | some current_salary =>
    let max_step := get_max_step_for_grade new_grade
    match scanSteps tbl new_grade current_salary (stepRange max_step) with
    | some (step, new_salary) => .ok (step, current_salary, new_salary)
    | none =>
      let fallback : ℚ :=
        match tbl new_grade max_step with
        | some v => if v ≠ 0 then v else current_salary
        | none => current_salary
      .ok (max_step, current_salary, fallback)

/-- The dictionary returned by `get_promotion_step_recommendation`
(lines 181–223): exactly the keys the Python dict carries, `none` standing
for an absent key. -/
structure StepRecommendation where
  can_calculate : Bool
  error : Option String := none
  current_grade : Option ℕ := none
  current_step : Option ℕ := none
  current_salary : Option ℚ := none
  target_grade : Option ℕ := none
  recommended_step : Option ℕ := none
  new_salary : Option ℚ := none
  salary_increment : Option ℚ := none
  increment_percentage : Option ℚ := none
  deriving Repr, DecidableEq

/-- The grade/step fields of a user that `get_promotion_step_recommendation`
reads. -/
structure StepUser where
  conraiss_grade : Option ℕ
  conraiss_step : Option ℕ
  deriving Repr, DecidableEq

/-- `get_promotion_step_recommendation`, lines 181–223 of
`step_allocation_service.py`. Only `ValueError` is caught (and turned into
an error dict); the division `(salary_increment / current_salary) * 100`
raises an uncaught `ZeroDivisionError` when the current salary is `0`,
modelled as `none`. -/
def get_promotion_step_recommendation (tbl : SalaryTable) (user : StepUser)
    (target_grade : ℕ) : Option StepRecommendation :=
  if ¬ (truthyNat user.conraiss_grade ∧ truthyNat user.conraiss_step) then
    some
      { can_calculate := false,
        error := some "User does not have current grade/step information" }
  else
    let g := user.conraiss_grade.getD 0
    let s := user.conraiss_step.getD 0
    match calculate_promotion_step tbl g s target_grade with
    | .error e => some { can_calculate := false, error := some e }
    | .ok (recommended_step, current_salary, new_salary) =>
      if current_salary = 0 then none
      else
        let salary_increment := new_salary - current_salary
        let increment_percentage := salary_increment / current_salary * 100
        some
          { can_calculate := true,
            current_grade := some g,
            current_step := some s,
            current_salary := some current_salary,
            target_grade := some target_grade,
            recommended_step := some recommended_step,
            new_salary := some new_salary,
            salary_increment := some salary_increment,
            increment_percentage := some (round2 increment_percentage) }

/-! ## The `User` model (`src/models/user.py`)

Only the columns the verified services read or write. Dates are day
ordinals. `failed_promotion_attempts` has column default `0` and every
write in the services keeps it non-null, so it is a plain `ℤ`. -/

structure Employee where
  id : ℕ
  conraiss_grade : Option ℕ := none
  conraiss_step : Option ℕ := none
  date_of_first_appointment : Option ℤ := none
  confirmation_date : Option ℤ := none
  date_of_last_promotion : Option ℤ := none
  date_of_birth : Option ℤ := none
  file_no : Option String := none
  failed_promotion_attempts : ℤ := 0
  last_rrr_date : Option ℤ := none
  last_rrr_type : Option String := none
  deriving Repr, DecidableEq

/-- A `StepIncrementLog` row (`src/models/salary.py` / used by
`step_allocation_service.py`). -/
structure StepIncrementLog where
  user_id : ℕ
  previous_step : Option ℕ
  new_step : Option ℕ
  increment_date : ℤ
  increment_type : String
  processed_by : Option ℕ := none
  notes : String
  deriving Repr, DecidableEq

/-- `apply_promotion`, lines 87–133 of `step_allocation_service.py`:
returns the mutated user together with the `StepIncrementLog` row the
function adds to the session (type `Promotion`, `previous_step` = the old
step, `new_step` = the target step). -/
def apply_promotion (user : Employee) (new_grade new_step : ℕ)
    (effective_date : Option ℤ) (today : ℤ) (processed_by : Option ℕ)
    (notes : Option String) : Employee × StepIncrementLog :=
  let eff := effective_date.getD today
  let old_grade := user.conraiss_grade
  let old_step := user.conraiss_step
  let user' := { user with
    conraiss_grade := some new_grade,
    conraiss_step := some new_step,
    date_of_last_promotion := some eff,
    last_rrr_date := some eff,
    last_rrr_type := some "Promotion",
    failed_promotion_attempts := 0 }
  let defaultNotes := "Promoted from Grade " ++ optNatStr old_grade ++
    " Step " ++ optNatStr old_step ++ " to Grade " ++ toString new_grade ++
    " Step " ++ toString new_step
  let log : StepIncrementLog := {
    user_id := user.id,
    previous_step := old_step,
    new_step := some new_step,
    increment_date := eff,
    increment_type := "Promotion",
    processed_by := processed_by,
    notes := match notes with
      | some s => if s ≠ "" then s else defaultNotes
      | none => defaultNotes }
  (user', log)

/-! ## Seniority ordering (`User.calculate_seniority_score`,
`src/models/user.py` lines 139–166)

The Python sort key is the tuple
`(-step if step else 0, confirmation_date or datetime.max.date(),
date_of_birth or datetime.max.date(), file_no or 'ZZZZ')`, compared
ascending and lexicographically. `datetime.max.date()` is 9999-12-31,
day ordinal 3652058. -/

/-- Day ordinal of `datetime.max.date()` (9999-12-31). -/
def dateMaxOrdinal : ℤ := 3652058

/-- The four-component sort key of `calculate_seniority_score`. Each
component follows Python truthiness: step `0` and file number `""` are
falsy and get the default, exactly as `-x.conraiss_step if x.conraiss_step
else 0` and `x.file_no if x.file_no else 'ZZZZ'` do (a non-`None` date
object is always truthy, so `getD` is faithful for the two dates). The
file number is compared as its code-point sequence (`String.data`), which
is exactly how Python compares strings. -/
def seniorityKey (u : Employee) : ℤ × ℤ × ℤ × List Char :=
  ( match u.conraiss_step with
    | some s => if s ≠ 0 then -(s : ℤ) else 0
    | none => 0,
    u.confirmation_date.getD dateMaxOrdinal,
    u.date_of_birth.getD dateMaxOrdinal,
    (match u.file_no with
     | some s => if s ≠ "" then s else "ZZZZ"
     | none => "ZZZZ").data )

/-- Ascending lexicographic comparison of sort keys, matching Python's
tuple `<`. Strings compare by code points, as in Python. -/
def keyLt (a b : ℤ × ℤ × ℤ × List Char) : Bool :=
  a.1 < b.1 ∨ (a.1 = b.1 ∧
    (a.2.1 < b.2.1 ∨ (a.2.1 = b.2.1 ∧
      (a.2.2.1 < b.2.2.1 ∨ (a.2.2.1 = b.2.2.1 ∧ a.2.2.2 < b.2.2.2)))))

/-- `u` sorts no later than `v` under the seniority key: the relation a
stable ascending sort by `seniorityKey` orders by. -/
def seniorityLe (u v : Employee) : Bool := ¬ keyLt (seniorityKey v) (seniorityKey u)

/-- Stable insertion: walk past the elements strictly below `u` and place
`u` before the first element not strictly below it. `sortPeers` inserts
`u` into the sorted tail, where every element is originally later than
`u`, so on equal keys `u` (the original-earlier element) stays first —
matching Python's stable `sorted`. -/
def stableInsert (u : Employee) : List Employee → List Employee
  | [] => [u]
  | v :: rest =>
    if keyLt (seniorityKey v) (seniorityKey u) then v :: stableInsert u rest
    else u :: v :: rest

/-- Stable sort by the seniority key (the `sorted(candidates, key=...)`
call of `calculate_seniority_score`). -/
def sortPeers : List Employee → List Employee
  | [] => []
  | u :: rest => stableInsert u (sortPeers rest)

/-- `list.index(self)` — first index structurally equal to `u` (SQLAlchemy
objects compare by identity; candidates are distinguished by `id`). -/
def indexOfPeer (u : Employee) : List Employee → Option ℕ
  | [] => none
  | v :: rest =>
    if v = u then some 0
    else (indexOfPeer u rest).map (· + 1)

/-- `User.calculate_seniority_score`, lines 139–166 of
`src/models/user.py`. -/
def calculate_seniority_score (u : Employee)
    (candidates_in_same_grade : List Employee) : ℚ :=
  if candidates_in_same_grade = [] then 100
  else
    let sorted_candidates := sortPeers candidates_in_same_grade
    match indexOfPeer u sorted_candidates with
    | none => 0
    | some idx =>
      let user_rank := idx + 1
      let total_candidates := sorted_candidates.length
      if total_candidates = 1 then 100
      else round2 (((total_candidates : ℚ) - user_rank) / ((total_candidates : ℚ) - 1) * 100)

/-! ## `eligibility_service.py` -/

/-- `get_standard_eligibility_cycle`, lines 11–30. -/
def get_standard_eligibility_cycle (conraiss_grade : ℕ) : ℕ :=
  if 2 ≤ conraiss_grade ∧ conraiss_grade ≤ 5 then 2
  else if 6 ≤ conraiss_grade ∧ conraiss_grade ≤ 12 then 3
  else if 13 ≤ conraiss_grade ∧ conraiss_grade ≤ 14 then 4
  else if conraiss_grade = 15 then 0
  else 3

/-- `has_active_disciplinary_action`, lines 33–45: the code's TODO stub
returns `False` for every user. -/
def has_active_disciplinary_action (_user : Employee) : Bool := false

/-- The `details` dictionary of an eligibility result; `none` marks a key
the returned dict does not carry. -/
structure EligDetails where
  current_grade : Option ℕ := none
  target_grade : Option ℕ := none
  years_in_grade : Option ℚ := none
  required_years : Option ℕ := none
  years_remaining : Option ℚ := none
  failed_attempts : Option ℤ := none
  standard_cycle : Option ℕ := none
  promotion_cycle : Option String := none
  deriving Repr, DecidableEq

/-- The dictionary returned by `is_eligible_for_promotion`. -/
structure EligibilityResult where
  eligible : Bool
  reason : String
  details : EligDetails := {}
  deriving Repr, DecidableEq

/-- The days in grade the service computes: from `date_of_last_promotion`
if present, else `date_of_first_appointment`, else undeterminable
(lines 98–110 of `eligibility_service.py`). -/
def daysInGrade (user : Employee) (today : ℤ) : Option ℤ :=
  match user.date_of_last_promotion with
  | some d => some (today - d)
  | none =>
    match user.date_of_first_appointment with
    | some d => some (today - d)
    | none => none

/-- `is_eligible_for_promotion`, lines 48–169 of `eligibility_service.py`.
`vacancy` is the `promotion_vacancies` count of the active `RRRVacancy` row
for `(current_grade, promotion_cycle)` when one exists (the DB query of the
optional vacancy check). -/
def is_eligible_for_promotion (user : Employee) (today : ℤ)
    (target_grade : Option ℕ) (check_vacancy : Bool)
    (promotion_cycle : Option String) (vacancy : Option ℤ) : EligibilityResult :=
  if ¬ (truthyNat user.conraiss_grade ∧ truthyNat user.conraiss_step) then
    { eligible := false, reason := "User does not have grade/step information" }
  else
    let current_grade := user.conraiss_grade.getD 0
    let tgt := target_grade.getD (current_grade + 1)
    if 15 ≤ current_grade then
      { eligible := false,
        reason := "Already at maximum CONRAISS grade (15)",
        details := { current_grade := some current_grade } }
    else if has_active_disciplinary_action user then
      { eligible := false, reason := "Has active disciplinary action" }
    else
      match daysInGrade user today with
      | none =>
        { eligible := false,
          reason := "Cannot determine time in grade (missing appointment dates)" }
      | some days_in_grade =>
        let years_in_grade : ℚ := (days_in_grade : ℚ) / (1461/4)
        let standard_cycle := get_standard_eligibility_cycle current_grade
        let failed_attempts := user.failed_promotion_attempts
        let required_years : ℕ := if 0 < failed_attempts then 1 else standard_cycle
        if years_in_grade < required_years then
          { eligible := false,
            reason := "Insufficient time in grade (requires " ++
              toString required_years ++ " years)",
            details := {
              current_grade := some current_grade,
              years_in_grade := some (round2 years_in_grade),
              required_years := some required_years,
              years_remaining := some (round2 ((required_years : ℚ) - years_in_grade)),
              failed_attempts := some failed_attempts } }
        else if check_vacancy ∧ truthyStr promotion_cycle then
          match vacancy with
          | some v =>
            if v ≤ 0 then
              { eligible := false,
                reason := "No promotion vacancies available for Grade " ++
                  toString current_grade ++ " in cycle " ++
                  (promotion_cycle.getD ""),
                details := { current_grade := some current_grade,
                             promotion_cycle := promotion_cycle } }
            else
              { eligible := true,
                reason := "Meets all eligibility criteria",
                details := {
                  current_grade := some current_grade,
                  target_grade := some tgt,
                  years_in_grade := some (round2 years_in_grade),
                  required_years := some required_years,
                  failed_attempts := some failed_attempts,
                  standard_cycle := some standard_cycle } }
          | none =>
            { eligible := false,
              reason := "No promotion vacancies available for Grade " ++
                toString current_grade ++ " in cycle " ++
                (promotion_cycle.getD ""),
              details := { current_grade := some current_grade,
                           promotion_cycle := promotion_cycle } }
        else
          { eligible := true,
            reason := "Meets all eligibility criteria",
            details := {
              current_grade := some current_grade,
              target_grade := some tgt,
              years_in_grade := some (round2 years_in_grade),
              required_years := some required_years,
              failed_attempts := some failed_attempts,
              standard_cycle := some standard_cycle } }

/-! ## `rrr_allocation_service.py` -/

/-- An `RRRRecommendation` row (`src/models/rrr.py`, lines 53–130).
`status` is a `String(50)` column with default `'Pending'`. New rows get
their primary key from the database; the model leaves `id := 0` on rows
created by the upsert, which never reads it. -/
structure Recommendation where
  id : ℕ := 0
  user_id : ℕ
  promotion_cycle : String
  conraiss_grade : ℕ
  exam_score : Option ℚ := none
  pms_score : Option ℚ := none
  seniority_score : Option ℚ := none
  combined_score : Option ℚ := none
  rank_in_grade : Option ℕ := none
  total_candidates_in_grade : Option ℕ := none
  is_promoted : Bool := false
  is_recognized : Bool := false
  is_rewarded : Bool := false
  promoted_to_grade : Option ℕ := none
  promoted_to_step : Option ℕ := none
  promotion_effective_date : Option ℤ := none
  status : String := "Pending"
  recommended_by : Option ℕ := none
  approved_by : Option ℕ := none
  approval_date : Option ℤ := none
  rejection_reason : Option String := none
  deriving Repr, DecidableEq

/-- The persistent state the allocation service reads and writes:
recommendation rows, user rows and the step-increment log (insertion
order preserved, as in the session). -/
structure DBState where
  recommendations : List Recommendation
  users : List Employee
  logs : List StepIncrementLog
  deriving Repr, DecidableEq

/-- `RRRRecommendation.query.get(id)`: primary-key lookup. -/
def findRecommendation (st : DBState) (recommendation_id : ℕ) : Option Recommendation :=
  st.recommendations.find? (fun r => r.id = recommendation_id)

/-- `User.query.get(id)`: primary-key lookup. -/
def findUser (st : DBState) (user_id : ℕ) : Option Employee :=
  st.users.find? (fun u => u.id = user_id)

/-- Replace the row with primary key `rid` by `r` (the ORM's in-place
mutation of the fetched object). -/
def setRecommendation (st : DBState) (rid : ℕ) (r : Recommendation) : DBState :=
  { st with recommendations :=
      st.recommendations.map (fun x => if x.id = rid then r else x) }

/-- Replace the user row with primary key `uid` by `u`. -/
def setUser (st : DBState) (uid : ℕ) (u : Employee) : DBState :=
  { st with users := st.users.map (fun x => if x.id = uid then u else x) }

/-- `approve_rrr_recommendation`, lines 272–305 of
`rrr_allocation_service.py`. Raises (`.error`) only when no row has the
given id; otherwise sets status/approver/timestamp unconditionally, and —
when `is_promoted` and both promotion targets are truthy — mutates the
employee row. It adds nothing to the step-increment log. -/
def approve_rrr_recommendation (st : DBState) (now today : ℤ)
    (recommendation_id approved_by : ℕ) :
    Except String (DBState × Recommendation) :=
  match findRecommendation st recommendation_id with
  | none => .error ("Recommendation " ++ toString recommendation_id ++ " not found")
  | some rec0 =>
    let rec1 := { rec0 with
      status := "Approved",
      approved_by := some approved_by,
      approval_date := some now }
    let st1 := setRecommendation st recommendation_id rec1
    let st2 :=
      if rec1.is_promoted ∧ truthyNat rec1.promoted_to_grade ∧
          truthyNat rec1.promoted_to_step then
        match findUser st1 rec1.user_id with
        | some user =>
          setUser st1 rec1.user_id { user with
            conraiss_grade := rec1.promoted_to_grade,
            conraiss_step := rec1.promoted_to_step,
            date_of_last_promotion := some (rec1.promotion_effective_date.getD today),
            last_rrr_date := some today,
            last_rrr_type := some "Promotion",
            failed_promotion_attempts := 0 }
        | none => st1
      else st1
    .ok (st2, rec1)

/-- `reject_rrr_recommendation`, lines 308–335 of
`rrr_allocation_service.py`. Raises (`.error`) only when no row has the
given id; otherwise sets status/reason unconditionally, and increments the
employee's failed-promotion counter when the recommendation was a
promotion. -/
def reject_rrr_recommendation (st : DBState) (recommendation_id : ℕ)
    (rejection_reason : String) : Except String (DBState × Recommendation) :=
  match findRecommendation st recommendation_id with
  | none => .error ("Recommendation " ++ toString recommendation_id ++ " not found")
  | some rec0 =>
    let rec1 := { rec0 with
      status := "Rejected",
      rejection_reason := some rejection_reason }
    let st1 := setRecommendation st recommendation_id rec1
    let st2 :=
      if rec1.is_promoted then
        match findUser st1 rec1.user_id with
        | some user =>
          setUser st1 rec1.user_id { user with
            failed_promotion_attempts := user.failed_promotion_attempts + 1 }
        | none => st1
      else st1
    .ok (st2, rec1)

/-! ### Rank-based slot allocation (`allocate_rrr_for_grade`, lines 81–141)

The function ranks the grade's candidates and then slices the ranked list:
`promoted = ranked[:pv] if pv > 0 else []`,
`recognized = ranked[len(promoted) : len(promoted)+rs] if rs > 0 else []`,
`rewarded = ranked[len(promoted)+rs : len(promoted)+rs+ks] if ks > 0 else []`.
Slot counts are modelled as `ℕ` (the claims concern non-negative counts,
where Python slicing is `drop`/`take`). The slicing is polymorphic in the
candidate entries. -/

structure RRRAllocationLists (α : Type) where
  promoted : List α
  recognized : List α
  rewarded : List α
  deriving Repr

/-- The slicing core of `allocate_rrr_for_grade` applied to the ranked
candidate list (`ranked_candidates`). -/
def allocate_rrr_for_grade {α : Type} (ranked : List α)
    (promotion_vacancies recognition_slots reward_slots : ℕ) :
    RRRAllocationLists α :=
  let promoted := if 0 < promotion_vacancies then ranked.take promotion_vacancies else []
  let recognition_start := promoted.length
  let recognition_end := recognition_start + recognition_slots
  let recognized := if 0 < recognition_slots then
    (ranked.drop recognition_start).take (recognition_end - recognition_start) else []
  let reward_start := recognition_end
  let reward_end := reward_start + reward_slots
  let rewarded := if 0 < reward_slots then
    (ranked.drop reward_start).take (reward_end - reward_start) else []
  { promoted := promoted, recognized := recognized, rewarded := rewarded }

/-! ### Recommendation materialization
(`generate_rrr_recommendations`, lines 183–250) -/

/-- One entry of the ranked-candidate dictionaries produced by
`rank_candidates`. -/
structure Candidate where
  user_id : ℕ
  exam_score : ℚ
  pms_score : ℚ
  seniority_score : ℚ
  combined_score : ℚ
  rank : ℕ
  deriving Repr, DecidableEq

/-- One grade's allocation result as consumed by
`generate_rrr_recommendations` (`total_candidates`, `all_candidates` and
the three allocation lists). -/
structure GradeAllocation where
  total_candidates : ℕ
  all_candidates : List Candidate
  promoted : List Candidate
  recognized : List Candidate
  rewarded : List Candidate
  deriving Repr

/-- The field assignments `generate_rrr_recommendations` performs on the
(found or fresh) recommendation row for one candidate. -/
def updateRecFields (recommended_by : Option ℕ) (grade : ℕ)
    (alloc : GradeAllocation) (cand : Candidate) (r : Recommendation) :
    Recommendation :=
  let r1 := { r with
    exam_score := some cand.exam_score,
    pms_score := some cand.pms_score,
    seniority_score := some cand.seniority_score,
    combined_score := some cand.combined_score,
    rank_in_grade := some cand.rank,
    total_candidates_in_grade := some alloc.total_candidates,
    is_promoted := alloc.promoted.contains cand,
    is_recognized := alloc.recognized.contains cand,
    is_rewarded := alloc.rewarded.contains cand }
  let r2 := if r1.is_promoted then
    { r1 with promoted_to_grade := some (grade + 1), status := "Pending" }
  else r1
  if truthyNat recommended_by then { r2 with recommended_by := recommended_by } else r2

/-- `(user_id, promotion_cycle)` — the key the upsert queries by. -/
def matchesKey (uid : ℕ) (cycle : String) (r : Recommendation) : Bool :=
  r.user_id = uid ∧ r.promotion_cycle = cycle

/-- Replace the first row matching `p` by `v`; append `v` when none does
(`db.session.add` of a fresh row). -/
def upsertRow (p : Recommendation → Bool) (v : Recommendation) :
    List Recommendation → List Recommendation
  | [] => [v]
  | r :: rest => if p r then v :: rest else r :: upsertRow p v rest

/-- Processing of a single candidate by `generate_rrr_recommendations`:
fetch the `(user_id, cycle)` row or create one with the model defaults and
`conraiss_grade := grade`, apply the field assignments, and store it. -/
def upsertCandidate (cycle : String) (recommended_by : Option ℕ) (grade : ℕ)
    (alloc : GradeAllocation) (store : List Recommendation) (cand : Candidate) :
    List Recommendation :=
  let base : Recommendation :=
    match store.find? (matchesKey cand.user_id cycle) with
    | some r => r
    | none => { user_id := cand.user_id, promotion_cycle := cycle,
                conraiss_grade := grade }
  upsertRow (matchesKey cand.user_id cycle)
    (updateRecFields recommended_by grade alloc cand base) store

/-- `generate_rrr_recommendations`, lines 183–250: iterate the allocation
results (`Dict[int, Dict]`, modelled as an association list in iteration
order) and upsert a row per ranked candidate. -/
def generate_rrr_recommendations (allocation_results : List (ℕ × GradeAllocation))
    (promotion_cycle : String) (recommended_by : Option ℕ)
    (store : List Recommendation) : List Recommendation :=
  allocation_results.foldl
    (fun st ga =>
      ga.2.all_candidates.foldl
        (fun st' c => upsertCandidate promotion_cycle recommended_by ga.1 ga.2 st' c)
        st)
    store

/-! ## Claims -/

/-- C3, counterexample. The claim says a missing (`None`) component
defaults to 0 for that component only, so `exam=80` with the other two
missing should yield `round(0.70*80, 2) = 56.0`. The code's
`calculate_combined_score` instead returns `0.0` whenever any component is
`None`. -/
theorem C3_counterexample :
    calculate_combined_score (some 80) none none = 0 ∧
    round2 ((80 : ℚ) * (70/100) + 0 * (20/100) + 0 * (10/100)) = 56 := by
  constructor
  · rfl
  · norm_num [round2, roundHalfEven]

/-- C3, amended: when all three components are present the combined score
is the weighted sum `0.70*exam + 0.20*performance + 0.10*seniority` rounded
to 2 decimals, but a `None` in any component makes the whole combined score
`0.0` rather than defaulting only that component (callers in
`calculate_user_rrr_scores` substitute `0.0` for missing inputs before the
call). -/
theorem C3_amended :
    (∀ e p s : ℚ, calculate_combined_score (some e) (some p) (some s) =
      round2 ((70 * e + 20 * p + 10 * s) / 100)) ∧
    (∀ e p s : Option ℚ, (e = none ∨ p = none ∨ s = none) →
      calculate_combined_score e p s = 0) := by
  constructor
  · intro e p s
    show round2 (e * (70/100) + p * (20/100) + s * (10/100)) = _
    congr 1
    ring
  · rintro e p s (rfl | rfl | rfl)
    · rfl
    · cases e <;> rfl
    · cases e <;> cases p <;> rfl

/-- Witness for C3: `calculate_combined_score` evaluated at concrete
inputs through `C3_amended`. -/
theorem C3_amended_witness :
    calculate_combined_score (some 80) (some 50) (some 30) =
      round2 ((70 * 80 + 20 * 50 + 10 * 30) / 100) ∧
    calculate_combined_score (some 80) none none = 0 :=
  ⟨C3_amended.1 80 50 30, C3_amended.2 (some 80) none none (Or.inr (Or.inl rfl))⟩

/-- C10: an employee with grade and step set, grade below 15, no
disciplinary hold, but neither `date_of_last_promotion` nor
`date_of_first_appointment`, is reported ineligible with the distinct
reason "Cannot determine time in grade (missing appointment dates)" — the
evaluation is total, it does not raise. -/
theorem C10_missing_dates (u : Employee) (today : ℤ) (g s : ℕ)
    (hg : u.conraiss_grade = some g) (hs : u.conraiss_step = some s)
    (hg0 : g ≠ 0) (hs0 : s ≠ 0) (hmax : g < 15)
    (hlp : u.date_of_last_promotion = none)
    (hfa : u.date_of_first_appointment = none) :
    is_eligible_for_promotion u today none false none none =
      { eligible := false,
        reason := "Cannot determine time in grade (missing appointment dates)" } := by
  rw [is_eligible_for_promotion]
  rw [if_neg, daysInGrade, hlp, hfa]
  · simp only [hg, Option.getD_some]
    rw [if_neg (by omega), if_neg (by simp [has_active_disciplinary_action])]
  · simp [truthyNat, hg, hs, hg0, hs0]

/-- Witness for C10: a grade-6 step-2 employee with no appointment dates. -/
theorem C10_missing_dates_witness :
    is_eligible_for_promotion
        { id := 1, conraiss_grade := some 6, conraiss_step := some 2 }
        0 none false none none =
      { eligible := false,
        reason := "Cannot determine time in grade (missing appointment dates)" } :=
  C10_missing_dates { id := 1, conraiss_grade := some 6, conraiss_step := some 2 }
    0 6 2 rfl rfl (by decide) (by decide) (by decide) rfl rfl


/-! ### Concrete fixtures used by the approval/rejection claims -/

/-- An employee at grade 7 step 10 with 2 failed promotion attempts. -/
def emp710 : Employee :=
  { id := 10, conraiss_grade := some 7, conraiss_step := some 10,
    failed_promotion_attempts := 2 }

/-- An already-Approved recommendation (approver 5). -/
def recTerminal : Recommendation :=
  { id := 1, user_id := 10, promotion_cycle := "2024", conraiss_grade := 7,
    status := "Approved", approved_by := some 5 }

/-- An already-Rejected recommendation. -/
def recRejectedRow : Recommendation :=
  { id := 1, user_id := 10, promotion_cycle := "2024", conraiss_grade := 7,
    status := "Rejected" }

/-- A Pending promotion recommendation with both targets set
(grade 8, step 3). -/
def recPendingFull : Recommendation :=
  { id := 1, user_id := 10, promotion_cycle := "2024", conraiss_grade := 7,
    is_promoted := true, promoted_to_grade := some 8,
    promoted_to_step := some 3, status := "Pending" }

/-- A Pending promotion recommendation as materialized by
`generate_rrr_recommendations`: target grade set, step deferred. -/
def recPendingNoStep : Recommendation :=
  { id := 1, user_id := 10, promotion_cycle := "2024", conraiss_grade := 7,
    is_promoted := true, promoted_to_grade := some 8, status := "Pending" }

/-- C1, counterexample. The claim says approve/reject on a non-Pending
(terminal) recommendation fail with a NotFound/InvalidState error and leave
everything unchanged. On a state whose only recommendation is already
Approved (with approver 5), `approve_rrr_recommendation` succeeds and
overwrites the approver, and `reject_rrr_recommendation` succeeds and
flips the status to Rejected: neither checks the status at all. -/
theorem C1_counterexample :
    ((approve_rrr_recommendation ⟨[recTerminal], [], []⟩ 0 0 1 7).toOption.map
        (fun x => (x.2.status, x.2.approved_by)) = some ("Approved", some 7)) ∧
    ((reject_rrr_recommendation ⟨[recTerminal], [], []⟩ 1 "dup").toOption.map
        (fun x => x.2.status) = some "Rejected") := by
  constructor <;> rfl

/-- C1, amended: `approve_rrr_recommendation` and
`reject_rrr_recommendation` fail (raise `ValueError` "... not found") if
and only if no recommendation row has the given id; on any existing
recommendation they succeed regardless of its status — there is no
Pending-only guard, so terminal recommendations are silently
re-approved/re-rejected. -/
theorem C1_amended (st : DBState) (now today : ℤ) (rid aid : ℕ) (reason : String) :
    (findRecommendation st rid = none →
      approve_rrr_recommendation st now today rid aid =
        .error ("Recommendation " ++ toString rid ++ " not found") ∧
      reject_rrr_recommendation st rid reason =
        .error ("Recommendation " ++ toString rid ++ " not found")) ∧
    (∀ r, findRecommendation st rid = some r →
      (∃ v, approve_rrr_recommendation st now today rid aid = .ok v ∧
        v.2.status = "Approved" ∧ v.2.approved_by = some aid) ∧
      (∃ w, reject_rrr_recommendation st rid reason = .ok w ∧
        w.2.status = "Rejected" ∧ w.2.rejection_reason = some reason)) := by
  constructor
  · intro h
    constructor
    · simp only [approve_rrr_recommendation, h]
    · simp only [reject_rrr_recommendation, h]
  · intro r h
    constructor
    · simp only [approve_rrr_recommendation, h]
      exact ⟨_, rfl, rfl, rfl⟩
    · simp only [reject_rrr_recommendation, h]
      exact ⟨_, rfl, rfl, rfl⟩

/-- Witness for C1: both branches of `C1_amended` on concrete states — an
empty store (not found) and a store holding a Rejected recommendation
(approval succeeds anyway). -/
theorem C1_amended_witness :
    (approve_rrr_recommendation ⟨[], [], []⟩ 0 0 1 7 =
      .error ("Recommendation " ++ toString 1 ++ " not found")) ∧
    (∃ v, approve_rrr_recommendation ⟨[recRejectedRow], [], []⟩ 0 0 1 7 = .ok v ∧
      v.2.status = "Approved" ∧ v.2.approved_by = some 7) :=
  ⟨((C1_amended ⟨[], [], []⟩ 0 0 1 7 "x").1 rfl).1,
   ((C1_amended ⟨[recRejectedRow], [], []⟩ 0 0 1 7 "x").2 _ rfl).1⟩

/-- C2, counterexample. Approving the Pending, promoted recommendation with
targets grade 8 step 3 for the employee at grade 7 step 10 does commit the
promotion to the employee row (grade 8, step 3, failed attempts 0), but the
step-increment log stays empty: `approve_rrr_recommendation` mutates the
user inline and never creates the Step Increment Log entry
(type Promotion, previous_step=10, new_step=3) that the claim requires. -/
theorem C2_counterexample :
    (approve_rrr_recommendation ⟨[recPendingFull], [emp710], []⟩ 5 5 1 99).toOption.map
        (fun x => (x.1.logs, x.1.users)) =
      some ([],
        [{ emp710 with
           conraiss_grade := some 8, conraiss_step := some 3,
           date_of_last_promotion := some 5, last_rrr_date := some 5,
           last_rrr_type := some "Promotion", failed_promotion_attempts := 0 }]) := by
  rfl

/-- C2, amended: approving a recommendation with `is_promoted` and both
targets set commits the promotion to the employee (grade and step to the
targets, the last-promotion date, failed attempts reset to 0) but appends
no Step Increment Log entry — the approval path bypasses the Step
Allocator's `apply_promotion`; `apply_promotion` itself, when called, is
what produces the Promotion log entry with `previous_step` = the old step
and `new_step` = the target step. -/
theorem C2_amended (st : DBState) (now today : ℤ) (rid aid : ℕ)
    (r : Recommendation) (u0 : Employee) (pg ps : ℕ)
    (hfind : findRecommendation st rid = some r)
    (hprom : r.is_promoted = true)
    (hpg : r.promoted_to_grade = some pg) (hpg0 : pg ≠ 0)
    (hps : r.promoted_to_step = some ps) (hps0 : ps ≠ 0)
    (huser : findUser st r.user_id = some u0) :
    (∃ st' r', approve_rrr_recommendation st now today rid aid = .ok (st', r') ∧
      st'.logs = st.logs ∧
      st'.users = st.users.map (fun x => if x.id = r.user_id then
        { u0 with
          conraiss_grade := some pg, conraiss_step := some ps,
          date_of_last_promotion := some (r.promotion_effective_date.getD today),
          last_rrr_date := some today, last_rrr_type := some "Promotion",
          failed_promotion_attempts := 0 } else x)) ∧
    (∀ (u : Employee) (g s : ℕ) (eff : Option ℤ) (td : ℤ) (pb : Option ℕ)
        (nts : Option String),
      (apply_promotion u g s eff td pb nts).1.conraiss_grade = some g ∧
      (apply_promotion u g s eff td pb nts).1.conraiss_step = some s ∧
      (apply_promotion u g s eff td pb nts).1.failed_promotion_attempts = 0 ∧
      (apply_promotion u g s eff td pb nts).1.date_of_last_promotion =
        some (eff.getD td) ∧
      (apply_promotion u g s eff td pb nts).2.increment_type = "Promotion" ∧
      (apply_promotion u g s eff td pb nts).2.previous_step = u.conraiss_step ∧
      (apply_promotion u g s eff td pb nts).2.new_step = some s) := by
  constructor
  · simp only [approve_rrr_recommendation, hfind]
    rw [if_pos ⟨hprom, by simp [truthyNat, hpg, hpg0], by simp [truthyNat, hps, hps0]⟩]
    have : findUser (setRecommendation st rid
        { r with status := "Approved", approved_by := some aid,
                 approval_date := some now }) r.user_id = some u0 := huser
    rw [this]
    refine ⟨_, _, rfl, rfl, ?_⟩
    simp [setUser, setRecommendation, hpg, hps]
  · intro u g s eff td pb nts
    exact ⟨rfl, rfl, rfl, rfl, rfl, rfl, rfl⟩

/-- Witness for C2: `C2_amended` applied to the concrete grade-7-step-10
employee with targets grade 8 step 3. -/
theorem C2_amended_witness :
    (∃ st' r', approve_rrr_recommendation ⟨[recPendingFull], [emp710], []⟩
        5 5 1 99 = .ok (st', r') ∧
      st'.logs = (⟨[recPendingFull], [emp710], []⟩ : DBState).logs ∧
      st'.users = (⟨[recPendingFull], [emp710], []⟩ : DBState).users.map
        (fun x => if x.id = recPendingFull.user_id then
          { emp710 with
            conraiss_grade := some 8, conraiss_step := some 3,
            date_of_last_promotion :=
              some (recPendingFull.promotion_effective_date.getD 5),
            last_rrr_date := some 5, last_rrr_type := some "Promotion",
            failed_promotion_attempts := 0 } else x)) ∧
    (∀ (u : Employee) (g s : ℕ) (eff : Option ℤ) (td : ℤ) (pb : Option ℕ)
        (nts : Option String),
      (apply_promotion u g s eff td pb nts).1.conraiss_grade = some g ∧
      (apply_promotion u g s eff td pb nts).1.conraiss_step = some s ∧
      (apply_promotion u g s eff td pb nts).1.failed_promotion_attempts = 0 ∧
      (apply_promotion u g s eff td pb nts).1.date_of_last_promotion =
        some (eff.getD td) ∧
      (apply_promotion u g s eff td pb nts).2.increment_type = "Promotion" ∧
      (apply_promotion u g s eff td pb nts).2.previous_step = u.conraiss_step ∧
      (apply_promotion u g s eff td pb nts).2.new_step = some s) :=
  C2_amended ⟨[recPendingFull], [emp710], []⟩ 5 5 1 99 recPendingFull emp710 8 3
    rfl rfl rfl (by decide) rfl (by decide) rfl

/-- C9: approving a recommendation that is Pending with `is_promoted` true
but no `promoted_to_step` (the state `generate_rrr_recommendations`
produces, which defers step allocation) succeeds and marks it Approved,
while the users and the step-increment log are completely unchanged: a
promotion can be marked Approved without ever being committed to the
employee record. -/
theorem C9_approve_without_step (st : DBState) (now today : ℤ) (rid aid : ℕ)
    (r : Recommendation)
    (hfind : findRecommendation st rid = some r)
    (hpend : r.status = "Pending")
    (hprom : r.is_promoted = true)
    (hps : r.promoted_to_step = none) :
    approve_rrr_recommendation st now today rid aid =
      .ok (setRecommendation st rid
          { r with status := "Approved", approved_by := some aid,
                   approval_date := some now },
        { r with status := "Approved", approved_by := some aid,
                 approval_date := some now }) ∧
    (setRecommendation st rid
        { r with status := "Approved", approved_by := some aid,
                 approval_date := some now }).users = st.users ∧
    (setRecommendation st rid
        { r with status := "Approved", approved_by := some aid,
                 approval_date := some now }).logs = st.logs := by
  refine ⟨?_, rfl, rfl⟩
  simp only [approve_rrr_recommendation, hfind]
  rw [if_neg (by simp [truthyNat, hps])]

/-- Witness for C9: a Pending promoted recommendation with target grade 8
and no step, approved over the grade-7-step-10 employee. -/
theorem C9_approve_without_step_witness :
    approve_rrr_recommendation ⟨[recPendingNoStep], [emp710], []⟩ 3 4 1 99 =
      .ok (setRecommendation ⟨[recPendingNoStep], [emp710], []⟩ 1
          { recPendingNoStep with
            status := "Approved", approved_by := some 99, approval_date := some 3 },
        { recPendingNoStep with
          status := "Approved", approved_by := some 99, approval_date := some 3 }) ∧
    (setRecommendation ⟨[recPendingNoStep], [emp710], []⟩ 1
        { recPendingNoStep with
          status := "Approved", approved_by := some 99,
          approval_date := some 3 }).users =
      (⟨[recPendingNoStep], [emp710], []⟩ : DBState).users ∧
    (setRecommendation ⟨[recPendingNoStep], [emp710], []⟩ 1
        { recPendingNoStep with
          status := "Approved", approved_by := some 99,
          approval_date := some 3 }).logs =
      (⟨[recPendingNoStep], [emp710], []⟩ : DBState).logs :=
  C9_approve_without_step ⟨[recPendingNoStep], [emp710], []⟩ 3 4 1 99
    recPendingNoStep rfl rfl rfl rfl

/-- A peer with a real file number `"a1"`, step 5, confirmed day 100, born
day 200. -/
def peerFiled : Employee :=
  { id := 1, conraiss_step := some 5, confirmation_date := some 100,
    date_of_birth := some 200, file_no := some "a1" }

/-- A peer identical to `peerFiled` on step, confirmation date and date of
birth, but with no file number. -/
def peerUnfiled : Employee :=
  { id := 2, conraiss_step := some 5, confirmation_date := some 100,
    date_of_birth := some 200 }

/-- C8, counterexample. The claim says a peer with a missing file number
sorts after every peer with a real file number, whatever the real value is.
The code substitutes the sentinel `'ZZZZ'`, and the real file number
`"a1"` compares lexicographically greater than `'ZZZZ'` (lowercase code
points exceed uppercase), so the missing-file peer sorts first: the sort
places `peerUnfiled` before `peerFiled`, making the missing-file peer the
most senior (score 100) instead of the least. -/
theorem C8_counterexample :
    keyLt (seniorityKey peerFiled) (seniorityKey peerUnfiled) = false ∧
    keyLt (seniorityKey peerUnfiled) (seniorityKey peerFiled) = true ∧
    sortPeers [peerFiled, peerUnfiled] = [peerUnfiled, peerFiled] := by
  refine ⟨by decide, by decide, by decide⟩

/-- C8, amended: among peers equal on step, confirmation date and date of
birth, a peer with a missing file number is ordered by the sentinel
`'ZZZZ'`: it sorts after exactly those peers whose real (truthy,
non-empty) file number is lexicographically less than `"ZZZZ"`, and before
those whose real file number is greater (e.g. any lowercase-initial file
number) — not after all real values. (An empty-string file number is falsy
in Python and gets the sentinel itself, tying with the missing peer.) -/
theorem C8_amended (u v : Employee) (f : String)
    (hstep : u.conraiss_step = v.conraiss_step)
    (hconf : u.confirmation_date = v.confirmation_date)
    (hdob : u.date_of_birth = v.date_of_birth)
    (hf : u.file_no = some f) (hne : f ≠ "") (hvf : v.file_no = none) :
    (keyLt (seniorityKey u) (seniorityKey v) = true ↔ f.data < "ZZZZ".data) ∧
    (keyLt (seniorityKey v) (seniorityKey u) = true ↔ "ZZZZ".data < f.data) := by
  unfold keyLt seniorityKey
  simp [hstep, hconf, hdob, hf, hne, hvf, lt_irrefl]

/-- Witness for C8: `C8_amended` at the concrete peers with file number
`"a1"` against the missing-file peer. -/
theorem C8_amended_witness :
    (keyLt (seniorityKey peerFiled) (seniorityKey peerUnfiled) = true ↔
      "a1".data < "ZZZZ".data) ∧
    (keyLt (seniorityKey peerUnfiled) (seniorityKey peerFiled) = true ↔
      "ZZZZ".data < "a1".data) :=
  C8_amended peerFiled peerUnfiled "a1" rfl rfl rfl rfl (by decide) rfl

/-- Taking `n` elements is the same as taking `(take n l).length` elements. -/
lemma take_self_length {α : Type} (l : List α) : ∀ n, l.take n = l.take (l.take n).length := by
  induction l with
  | nil => simp
  | cons a t ih =>
    intro n
    cases n with
    | zero => simp
    | succ m =>
      simp only [List.take_succ_cons, List.length_cons]
      rw [← ih m]

/-- Two position slices of a duplicate-free list are disjoint when the
first ends no later than the second starts. -/
lemma seg_disjoint {α : Type} (l : List α) (hnd : l.Nodup) {i m j k : ℕ}
    (h : i + m ≤ j) :
    List.Disjoint ((l.drop i).take m) ((l.drop j).take k) := by
  intro a ha hb
  have ha' : a ∈ l.take (i + m) := by
    rw [List.take_drop] at ha
    exact List.mem_of_mem_drop ha
  have hb' : a ∈ l.drop j := List.mem_of_mem_take hb
  exact List.disjoint_take_drop hnd h ha' hb'

/-- C5: for every ranked candidate list and non-negative slot counts, the
allocation takes at most `promotion_vacancies` promoted, at most
`recognition_slots` recognized and at most `reward_slots` rewarded; the
promoted are the top of the ranked list, the recognized the positions
directly after the promoted, and the rewarded the positions directly after
the recognition block; a zero count skips its tier; and on a
duplicate-free ranked list the three selections are pairwise disjoint. -/
theorem C5_slot_allocation {α : Type} (ranked : List α) (pv rs ks : ℕ)
    (hnd : ranked.Nodup) :
    (allocate_rrr_for_grade ranked pv rs ks).promoted.length ≤ pv ∧
    (allocate_rrr_for_grade ranked pv rs ks).recognized.length ≤ rs ∧
    (allocate_rrr_for_grade ranked pv rs ks).rewarded.length ≤ ks ∧
    (allocate_rrr_for_grade ranked pv rs ks).promoted =
      ranked.take (allocate_rrr_for_grade ranked pv rs ks).promoted.length ∧
    (allocate_rrr_for_grade ranked pv rs ks).recognized =
      (ranked.drop (allocate_rrr_for_grade ranked pv rs ks).promoted.length).take
        (allocate_rrr_for_grade ranked pv rs ks).recognized.length ∧
    (allocate_rrr_for_grade ranked pv rs ks).rewarded =
      (ranked.drop ((allocate_rrr_for_grade ranked pv rs ks).promoted.length + rs)).take
        (allocate_rrr_for_grade ranked pv rs ks).rewarded.length ∧
    (pv = 0 → (allocate_rrr_for_grade ranked pv rs ks).promoted = []) ∧
    (rs = 0 → (allocate_rrr_for_grade ranked pv rs ks).recognized = []) ∧
    (ks = 0 → (allocate_rrr_for_grade ranked pv rs ks).rewarded = []) ∧
    List.Disjoint (allocate_rrr_for_grade ranked pv rs ks).promoted
      (allocate_rrr_for_grade ranked pv rs ks).recognized ∧
    List.Disjoint (allocate_rrr_for_grade ranked pv rs ks).promoted
      (allocate_rrr_for_grade ranked pv rs ks).rewarded ∧
    List.Disjoint (allocate_rrr_for_grade ranked pv rs ks).recognized
      (allocate_rrr_for_grade ranked pv rs ks).rewarded := by
  set a := allocate_rrr_for_grade ranked pv rs ks with ha
  have hP : a.promoted = if 0 < pv then ranked.take pv else [] := rfl
  have hR : a.recognized = if 0 < rs then
      (ranked.drop a.promoted.length).take (a.promoted.length + rs - a.promoted.length)
    else [] := rfl
  have hW : a.rewarded = if 0 < ks then
      (ranked.drop (a.promoted.length + rs)).take
        (a.promoted.length + rs + ks - (a.promoted.length + rs))
    else [] := rfl
  rw [Nat.add_sub_cancel_left] at hR
  rw [Nat.add_sub_cancel_left] at hW
  have hPlen : a.promoted.length ≤ pv := by
    rw [hP]; split
    · simp [Nat.min_le_left]
    · simp
  have hRlen : a.recognized.length ≤ rs := by
    rw [hR]; split
    · simp [Nat.min_le_left]
    · simp
  have hWlen : a.rewarded.length ≤ ks := by
    rw [hW]; split
    · simp [Nat.min_le_left]
    · simp
  have hPchar : a.promoted = ranked.take a.promoted.length := by
    rw [hP]; split
    · exact take_self_length ranked pv
    · simp
  have hRchar : a.recognized =
      (ranked.drop a.promoted.length).take a.recognized.length := by
    rw [hR]; split
    · exact take_self_length _ rs
    · simp
  have hWchar : a.rewarded =
      (ranked.drop (a.promoted.length + rs)).take a.rewarded.length := by
    rw [hW]; split
    · exact take_self_length _ ks
    · simp
  refine ⟨hPlen, hRlen, hWlen, hPchar, hRchar, hWchar, ?_, ?_, ?_, ?_, ?_, ?_⟩
  · intro h; rw [hP]; simp [h]
  · intro h; rw [hR]; simp [h]
  · intro h; rw [hW]; simp [h]
  · have h := @seg_disjoint α ranked hnd 0 a.promoted.length a.promoted.length
      a.recognized.length (by omega)
    rw [List.drop_zero] at h
    rw [hPchar, hRchar]
    exact h
  · have h := @seg_disjoint α ranked hnd 0 a.promoted.length
      (a.promoted.length + rs) a.rewarded.length (by omega)
    rw [List.drop_zero] at h
    rw [hPchar, hWchar]
    exact h
  · have h := @seg_disjoint α ranked hnd a.promoted.length a.recognized.length
      (a.promoted.length + rs) a.rewarded.length (by omega)
    rw [hRchar, hWchar]
    exact h

/-- Witness for C5: six ranked candidates, 2 promotion slots, 2 recognition
slots, 1 reward slot. -/
theorem C5_slot_allocation_witness :
    (allocate_rrr_for_grade [0, 1, 2, 3, 4, 5] 2 2 1).promoted.length ≤ 2 ∧
    (allocate_rrr_for_grade [0, 1, 2, 3, 4, 5] 2 2 1).recognized.length ≤ 2 ∧
    (allocate_rrr_for_grade [0, 1, 2, 3, 4, 5] 2 2 1).rewarded.length ≤ 1 ∧
    (allocate_rrr_for_grade [0, 1, 2, 3, 4, 5] 2 2 1).promoted =
      [0, 1, 2, 3, 4, 5].take
        (allocate_rrr_for_grade [0, 1, 2, 3, 4, 5] 2 2 1).promoted.length ∧
    (allocate_rrr_for_grade [0, 1, 2, 3, 4, 5] 2 2 1).recognized =
      ([0, 1, 2, 3, 4, 5].drop
          (allocate_rrr_for_grade [0, 1, 2, 3, 4, 5] 2 2 1).promoted.length).take
        (allocate_rrr_for_grade [0, 1, 2, 3, 4, 5] 2 2 1).recognized.length ∧
    (allocate_rrr_for_grade [0, 1, 2, 3, 4, 5] 2 2 1).rewarded =
      ([0, 1, 2, 3, 4, 5].drop
          ((allocate_rrr_for_grade [0, 1, 2, 3, 4, 5] 2 2 1).promoted.length + 2)).take
        (allocate_rrr_for_grade [0, 1, 2, 3, 4, 5] 2 2 1).rewarded.length ∧
    ((2 : ℕ) = 0 → (allocate_rrr_for_grade [0, 1, 2, 3, 4, 5] 2 2 1).promoted = []) ∧
    ((2 : ℕ) = 0 → (allocate_rrr_for_grade [0, 1, 2, 3, 4, 5] 2 2 1).recognized = []) ∧
    ((1 : ℕ) = 0 → (allocate_rrr_for_grade [0, 1, 2, 3, 4, 5] 2 2 1).rewarded = []) ∧
    List.Disjoint (allocate_rrr_for_grade [0, 1, 2, 3, 4, 5] 2 2 1).promoted
      (allocate_rrr_for_grade [0, 1, 2, 3, 4, 5] 2 2 1).recognized ∧
    List.Disjoint (allocate_rrr_for_grade [0, 1, 2, 3, 4, 5] 2 2 1).promoted
      (allocate_rrr_for_grade [0, 1, 2, 3, 4, 5] 2 2 1).rewarded ∧
    List.Disjoint (allocate_rrr_for_grade [0, 1, 2, 3, 4, 5] 2 2 1).recognized
      (allocate_rrr_for_grade [0, 1, 2, 3, 4, 5] 2 2 1).rewarded :=
  C5_slot_allocation ([0, 1, 2, 3, 4, 5] : List ℕ) 2 2 1 (by decide)

/-- C6: for an employee with grade and step set, grade in 2..14 (below the
cap), no disciplinary hold (the code's check is constantly false), and a
determinable time in grade of `days` days (from `date_of_last_promotion`,
else `date_of_first_appointment`), the required wait `req` is 2 years for
grades 2–5, 3 for 6–12, 4 for 13–14, collapsing to 1 year whenever there is
at least one failed promotion attempt; the employee is ineligible if and
only if `days/365.25` years is below `req`, and in that case the reason is
the insufficient-time message and `years_remaining = round(req − years, 2)`
is reported. -/
theorem C6_time_in_grade (u : Employee) (today days : ℤ) (g s req : ℕ) (years : ℚ)
    (hg : u.conraiss_grade = some g) (hs : u.conraiss_step = some s)
    (hg2 : 2 ≤ g) (hg14 : g ≤ 14) (hs0 : s ≠ 0)
    (hdays : daysInGrade u today = some days)
    (hreq : req = if 0 < u.failed_promotion_attempts then 1
      else if g ≤ 5 then 2 else if g ≤ 12 then 3 else 4)
    (hyears : years = (days : ℚ) / (1461/4)) :
    ((is_eligible_for_promotion u today none false none none).eligible = false ↔
      years < (req : ℚ)) ∧
    (years < (req : ℚ) →
      (is_eligible_for_promotion u today none false none none).reason =
        "Insufficient time in grade (requires " ++ toString req ++ " years)" ∧
      (is_eligible_for_promotion u today none false none none).details.years_remaining =
        some (round2 ((req : ℚ) - years))) := by
  have hsc : get_standard_eligibility_cycle g =
      (if g ≤ 5 then 2 else if g ≤ 12 then 3 else 4) := by
    unfold get_standard_eligibility_cycle
    split_ifs <;> omega
  have hmain : is_eligible_for_promotion u today none false none none =
      (if (days : ℚ) / (1461/4) <
          ((if 0 < u.failed_promotion_attempts then 1
            else get_standard_eligibility_cycle g : ℕ) : ℚ) then
        { eligible := false,
          reason := "Insufficient time in grade (requires " ++
            toString (if 0 < u.failed_promotion_attempts then 1
              else get_standard_eligibility_cycle g) ++ " years)",
          details := {
            current_grade := some g,
            years_in_grade := some (round2 ((days : ℚ) / (1461/4))),
            required_years := some (if 0 < u.failed_promotion_attempts then 1
              else get_standard_eligibility_cycle g),
            years_remaining := some (round2
              (((if 0 < u.failed_promotion_attempts then 1
                else get_standard_eligibility_cycle g : ℕ) : ℚ) -
                (days : ℚ) / (1461/4))),
            failed_attempts := some u.failed_promotion_attempts } }
      else
        { eligible := true,
          reason := "Meets all eligibility criteria",
          details := {
            current_grade := some g,
            target_grade := some (g + 1),
            years_in_grade := some (round2 ((days : ℚ) / (1461/4))),
            required_years := some (if 0 < u.failed_promotion_attempts then 1
              else get_standard_eligibility_cycle g),
            failed_attempts := some u.failed_promotion_attempts,
            standard_cycle := some (get_standard_eligibility_cycle g) } }) := by
    rw [is_eligible_for_promotion]
    rw [if_neg (not_not_intro
      ⟨by simp only [truthyNat, hg, Option.getD_some]; simpa using by omega,
       by simp only [truthyNat, hs, Option.getD_some]; simpa using hs0⟩)]
    simp only [hg, hs, Option.getD_some, Option.getD_none, hdays]
    rw [if_neg (by omega : ¬ 15 ≤ g)]
    rw [if_neg (by simp [has_active_disciplinary_action])]
    simp only [truthyStr, Bool.false_eq_true, false_and, if_false]
  rw [hmain, hsc, ← hreq, ← hyears]
  constructor
  · split_ifs with h
    · simpa using h
    · simpa using h
  · intro h
    rw [if_pos h]
    exact ⟨rfl, rfl⟩

/-- Witness for C6: a grade-6 employee with 1 failed attempt, last promoted
439 days (≈1.2 years) before today — the relaxed 1-year rule applies and
439/365.25 ≥ 1, so the eligibility iff is exercised at a concrete input. -/
theorem C6_time_in_grade_witness :
    ((is_eligible_for_promotion
        { id := 3, conraiss_grade := some 6, conraiss_step := some 4,
          date_of_last_promotion := some 0, failed_promotion_attempts := 1 }
        439 none false none none).eligible = false ↔
      ((439 : ℤ) : ℚ) / (1461/4) < ((1 : ℕ) : ℚ)) ∧
    (((439 : ℤ) : ℚ) / (1461/4) < ((1 : ℕ) : ℚ) →
      (is_eligible_for_promotion
        { id := 3, conraiss_grade := some 6, conraiss_step := some 4,
          date_of_last_promotion := some 0, failed_promotion_attempts := 1 }
        439 none false none none).reason =
        "Insufficient time in grade (requires " ++ toString (1 : ℕ) ++ " years)" ∧
      (is_eligible_for_promotion
        { id := 3, conraiss_grade := some 6, conraiss_step := some 4,
          date_of_last_promotion := some 0, failed_promotion_attempts := 1 }
        439 none false none none).details.years_remaining =
        some (round2 (((1 : ℕ) : ℚ) - ((439 : ℤ) : ℚ) / (1461/4)))) :=
  C6_time_in_grade
    { id := 3, conraiss_grade := some 6, conraiss_step := some 4,
      date_of_last_promotion := some 0, failed_promotion_attempts := 1 }
    439 439 6 4 1 (((439 : ℤ) : ℚ) / (1461/4))
    rfl rfl (by decide) (by decide) (by decide) rfl (by decide) rfl

/-- The loop condition of `calculate_promotion_step` at step `s`: the
looked-up salary is truthy and strictly exceeds the current salary. -/
def stepQualifies (tbl : SalaryTable) (ng : ℕ) (cur : ℚ) (s : ℕ) : Prop :=
  ∃ v, tbl ng s = some v ∧ v ≠ 0 ∧ cur < v

/-- The scan returns nothing exactly when no step in the list qualifies. -/
lemma scanSteps_eq_none {tbl : SalaryTable} {ng : ℕ} {cur : ℚ} :
    ∀ {L : List ℕ}, scanSteps tbl ng cur L = none ↔
      ∀ s ∈ L, ¬ stepQualifies tbl ng cur s := by
  intro L
  induction L with
  | nil => simp [scanSteps]
  | cons a t ih =>
    constructor
    · intro h s hs
      rcases List.mem_cons.mp hs with rfl | hs'
      · rintro ⟨v, hv, hc⟩
        rw [scanSteps] at h
        simp only [hv] at h
        rw [if_pos hc] at h
        exact Option.noConfusion h
      · have ht : scanSteps tbl ng cur t = none := by
          rw [scanSteps] at h
          cases hv : tbl ng a with
          | none => simpa only [hv] using h
          | some v =>
            simp only [hv] at h
            by_cases hc : v ≠ 0 ∧ cur < v
            · rw [if_pos hc] at h; exact Option.noConfusion h
            · rwa [if_neg hc] at h
        exact (ih.mp ht) s hs'
    · intro hall
      rw [scanSteps]
      cases hv : tbl ng a with
      | none =>
        simp only [hv]
        exact ih.mpr (fun s hs => hall s (List.mem_cons_of_mem _ hs))
      | some v =>
        simp only [hv]
        rw [if_neg (fun hc => hall a (List.mem_cons_self a t) ⟨v, hv, hc⟩)]
        exact ih.mpr (fun s hs => hall s (List.mem_cons_of_mem _ hs))

/-- When the scan returns `(s, v)`, step `s` qualifies with salary `v` and
every step listed before `s` fails the loop condition. -/
lemma scanSteps_eq_some {tbl : SalaryTable} {ng : ℕ} {cur : ℚ} :
    ∀ {L : List ℕ} {s : ℕ} {v : ℚ}, scanSteps tbl ng cur L = some (s, v) →
      tbl ng s = some v ∧ v ≠ 0 ∧ cur < v ∧
      ∃ L1 L2, L = L1 ++ s :: L2 ∧ ∀ x ∈ L1, ¬ stepQualifies tbl ng cur x := by
  intro L
  induction L with
  | nil => intro s v h; exact absurd h (by simp [scanSteps])
  | cons a t ih =>
    intro s v h
    rw [scanSteps] at h
    cases hv : tbl ng a with
    | none =>
      simp only [hv] at h
      obtain ⟨h1, h2, h3, L1, L2, hdec, hL1⟩ := ih h
      refine ⟨h1, h2, h3, a :: L1, L2, by rw [hdec]; rfl, ?_⟩
      intro x hx
      rcases List.mem_cons.mp hx with rfl | hx'
      · rintro ⟨w, hw, _⟩
        rw [hv] at hw
        exact Option.noConfusion hw
      · exact hL1 x hx'
    | some w =>
      simp only [hv] at h
      by_cases hc : w ≠ 0 ∧ cur < w
      · rw [if_pos hc] at h
        have hp := Option.some.inj h
        have ha : a = s := congrArg Prod.fst hp
        have hw : w = v := congrArg Prod.snd hp
        subst ha; subst hw
        exact ⟨hv, hc.1, hc.2, [], t, rfl, by simp⟩
      · rw [if_neg hc] at h
        obtain ⟨h1, h2, h3, L1, L2, hdec, hL1⟩ := ih h
        refine ⟨h1, h2, h3, a :: L1, L2, by rw [hdec]; rfl, ?_⟩
        intro x hx
        rcases List.mem_cons.mp hx with rfl | hx'
        · rintro ⟨w', hw', hc'⟩
          rw [hv] at hw'
          cases Option.some.inj hw'
          exact hc hc'
        · exact hL1 x hx'

/-- Membership in the scanned step range. -/
lemma mem_stepRange {x n : ℕ} : x ∈ stepRange n ↔ 1 ≤ x ∧ x ≤ n := by
  simp only [stepRange, List.mem_map, List.mem_range]
  constructor
  · rintro ⟨y, hy, rfl⟩; omega
  · intro h; exact ⟨x - 1, by omega, by omega⟩

/-- The scanned step range is strictly increasing. -/
lemma stepRange_pairwise (n : ℕ) : (stepRange n).Pairwise (· < ·) := by
  unfold stepRange
  exact (List.pairwise_map.mpr ((List.pairwise_lt_range n).imp (by omega)))

/-- C4, amended: when the current salary exists and is positive (the
division by it in the recommendation dict makes `0` raise an uncaught
`ZeroDivisionError`), `calculate_promotion_step` returns the minimum step
of the target grade whose salary strictly exceeds it whenever one exists;
when none exists it does not raise but returns the target grade's maximum
step with a best-effort salary — and this degraded outcome carries no
explicit flag: the recommendation output is produced with the ordinary
success shape (`can_calculate = True`, no `error` key), exactly as a
healthy promotion would. -/
theorem C4_step_allocation (tbl : SalaryTable) (cg cs ng : ℕ) (cur : ℚ)
    (htbl : tbl cg cs = some cur) (hcur : 0 < cur) (hcg : cg ≠ 0) (hcs : cs ≠ 0) :
    (∀ s0, 1 ≤ s0 → s0 ≤ get_max_step_for_grade ng →
      (∃ v0, tbl ng s0 = some v0 ∧ cur < v0) →
      ∃ step v, calculate_promotion_step tbl cg cs ng = .ok (step, cur, v) ∧
        tbl ng step = some v ∧ cur < v ∧ 1 ≤ step ∧
        step ≤ get_max_step_for_grade ng ∧
        ∀ x, 1 ≤ x → x < step → ¬ ∃ w, tbl ng x = some w ∧ cur < w) ∧
    ((∀ x, 1 ≤ x → x ≤ get_max_step_for_grade ng →
        ¬ ∃ w, tbl ng x = some w ∧ cur < w) →
      ∃ w, calculate_promotion_step tbl cg cs ng =
          .ok (get_max_step_for_grade ng, cur, w) ∧
        ∃ rec, get_promotion_step_recommendation tbl ⟨some cg, some cs⟩ ng =
            some rec ∧
          rec.can_calculate = true ∧ rec.error = none) := by
  have hbridge : ∀ x, stepQualifies tbl ng cur x ↔ ∃ w, tbl ng x = some w ∧ cur < w := by
    intro x
    constructor
    · rintro ⟨v, hv, _, hlt⟩; exact ⟨v, hv, hlt⟩
    · rintro ⟨v, hv, hlt⟩; exact ⟨v, hv, (lt_of_le_of_lt hcur.le hlt).ne', hlt⟩
  constructor
  · intro s0 hs01 hs0m hq0
    cases hsc : scanSteps tbl ng cur (stepRange (get_max_step_for_grade ng)) with
    | none =>
      exact absurd ((hbridge s0).mpr hq0)
        (scanSteps_eq_none.mp hsc s0 (mem_stepRange.mpr ⟨hs01, hs0m⟩))
    | some p =>
      obtain ⟨step, v⟩ := p
      obtain ⟨h1, _, h3, L1, L2, hdec, hL1⟩ := scanSteps_eq_some hsc
      have hstepmem : step ∈ stepRange (get_max_step_for_grade ng) := by
        rw [hdec]
        exact List.mem_append_right _ (List.mem_cons_self _ _)
      have hstep1 := (mem_stepRange.mp hstepmem).1
      have hstepm := (mem_stepRange.mp hstepmem).2
      refine ⟨step, v, ?_, h1, h3, hstep1, hstepm, ?_⟩
      · rw [calculate_promotion_step]
        simp only [htbl, hsc]
      · intro x hx1 hxs hq
        have hxmem : x ∈ stepRange (get_max_step_for_grade ng) :=
          mem_stepRange.mpr ⟨hx1, by omega⟩
        rw [hdec] at hxmem
        rcases List.mem_append.mp hxmem with hxL1 | hxR
        · exact hL1 x hxL1 ((hbridge x).mpr hq)
        · rcases List.mem_cons.mp hxR with rfl | hxL2
          · omega
          · have hpw := stepRange_pairwise (get_max_step_for_grade ng)
            rw [hdec] at hpw
            have := (List.pairwise_cons.mp (List.pairwise_append.mp hpw).2.1).1 x hxL2
            omega
  · intro hall
    have hnone : scanSteps tbl ng cur (stepRange (get_max_step_for_grade ng)) = none := by
      refine scanSteps_eq_none.mpr (fun s hs hq => ?_)
      exact hall s (mem_stepRange.mp hs).1 (mem_stepRange.mp hs).2 ((hbridge s).mp hq)
    have hcalc : calculate_promotion_step tbl cg cs ng =
        .ok (get_max_step_for_grade ng, cur,
          match tbl ng (get_max_step_for_grade ng) with
          | some v => if v ≠ 0 then v else cur
          | none => cur) := by
      rw [calculate_promotion_step]
      simp only [htbl, hnone]
    refine ⟨_, hcalc, ?_⟩
    rw [get_promotion_step_recommendation,
      if_neg (not_not_intro ⟨by simpa [truthyNat] using hcg,
        by simpa [truthyNat] using hcs⟩)]
    simp only [Option.getD_some, hcalc]
    rw [if_neg hcur.ne']
    exact ⟨_, rfl, rfl, rfl⟩

/-- A degraded (inverted) salary table: grade 7 step 10 pays 1000 while
every step of grade 8 pays 500 — no step of the target grade exceeds the
current salary. -/
def invertedSalaryTable : SalaryTable := fun g s =>
  if g = 7 ∧ s = 10 then some 1000
  else if g = 8 ∧ 1 ≤ s ∧ s ≤ 15 then some 500
  else none

/-- A healthy salary table: grade 7 step 10 pays 1000, every step of grade
8 pays 2000. -/
def healthySalaryTable : SalaryTable := fun g s =>
  if g = 7 ∧ s = 10 then some 1000
  else if g = 8 ∧ 1 ≤ s ∧ s ≤ 15 then some 2000
  else none

/-- C4, counterexample. On the inverted table the fallback fires: the
result is the maximum step (15) of the target grade with a pay cut
(new 500 < current 1000), and — against the claim's "explicitly flagged
for human review" — the recommendation output is shaped exactly like a
nominal success: `can_calculate = True` and no `error` key; no field of
the returned dictionary flags the degraded case, which is detectable only
from the salary numbers themselves. -/
theorem C4_counterexample :
    calculate_promotion_step invertedSalaryTable 7 10 8 = .ok (15, 1000, 500) ∧
    (500 : ℚ) < 1000 ∧
    (get_promotion_step_recommendation invertedSalaryTable
      ⟨some 7, some 10⟩ 8).map
        (fun r => (r.can_calculate, r.error, r.recommended_step,
          r.current_salary, r.new_salary)) =
      some (true, none, some 15, some 1000, some 500) :=
  ⟨rfl, by norm_num, rfl⟩

/-- Witness for C4: the minimum-increment branch on the healthy table
(step 1 of grade 8 already qualifies) and the fallback branch on the
inverted table. -/
theorem C4_step_allocation_witness :
    (∃ step v, calculate_promotion_step healthySalaryTable 7 10 8 =
        .ok (step, 1000, v) ∧
      healthySalaryTable 8 step = some v ∧ (1000 : ℚ) < v ∧ 1 ≤ step ∧
      step ≤ get_max_step_for_grade 8 ∧
      ∀ x, 1 ≤ x → x < step →
        ¬ ∃ w, healthySalaryTable 8 x = some w ∧ (1000 : ℚ) < w) ∧
    (∃ w, calculate_promotion_step invertedSalaryTable 7 10 8 =
        .ok (get_max_step_for_grade 8, 1000, w) ∧
      ∃ rec, get_promotion_step_recommendation invertedSalaryTable
          ⟨some 7, some 10⟩ 8 = some rec ∧
        rec.can_calculate = true ∧ rec.error = none) :=
  ⟨(C4_step_allocation healthySalaryTable 7 10 8 1000 rfl (by norm_num)
      (by decide) (by decide)).1 1 (by decide) (by decide)
      ⟨2000, rfl, by norm_num⟩,
   (C4_step_allocation invertedSalaryTable 7 10 8 1000 rfl (by norm_num)
      (by decide) (by decide)).2
      (by
        intro x hx1 hx2 hq
        obtain ⟨w, hw, hlt⟩ := hq
        have hx15 : x ≤ 15 := by
          have : get_max_step_for_grade 8 = 15 := rfl
          omega
        unfold invertedSalaryTable at hw
        rw [if_neg (by omega)] at hw
        rw [if_pos ⟨rfl, hx1, hx15⟩] at hw
        cases Option.some.inj hw
        exact absurd hlt (by norm_num))⟩

/-! ### Idempotence of the recommendation upsert (claim C7) -/

/-- The upsert key of a stored recommendation row. -/
def recKey (r : Recommendation) : ℕ × String := (r.user_id, r.promotion_cycle)

/-- A row matches the query predicate exactly when its key is the queried
key. -/
lemma matchesKey_iff (uid : ℕ) (cycle : String) (r : Recommendation) :
    matchesKey uid cycle r = true ↔ recKey r = (uid, cycle) := by
  simp [matchesKey, recKey, Prod.ext_iff]

/-- The field assignments never touch `user_id`. -/
lemma updateRecFields_user_id (rb : Option ℕ) (g : ℕ) (a : GradeAllocation)
    (c : Candidate) (r : Recommendation) :
    (updateRecFields rb g a c r).user_id = r.user_id := by
  unfold updateRecFields
  dsimp only
  split_ifs <;> rfl

/-- The field assignments never touch `promotion_cycle`. -/
lemma updateRecFields_cycle (rb : Option ℕ) (g : ℕ) (a : GradeAllocation)
    (c : Candidate) (r : Recommendation) :
    (updateRecFields rb g a c r).promotion_cycle = r.promotion_cycle := by
  unfold updateRecFields
  dsimp only
  split_ifs <;> rfl

/-- The field assignments are idempotent: every field is either set to a
value that does not depend on the current row, or passed through. -/
lemma updateRecFields_idem (rb : Option ℕ) (g : ℕ) (a : GradeAllocation)
    (c : Candidate) (r : Recommendation) :
    updateRecFields rb g a c (updateRecFields rb g a c r) =
      updateRecFields rb g a c r := by
  unfold updateRecFields
  dsimp only
  split_ifs <;> rfl

/-- Matching is invariant under the field assignments. -/
lemma matchesKey_updateRecFields (uid : ℕ) (cycle : String) (rb : Option ℕ)
    (g : ℕ) (a : GradeAllocation) (c : Candidate) (r : Recommendation) :
    matchesKey uid cycle (updateRecFields rb g a c r) = matchesKey uid cycle r := by
  unfold matchesKey
  rw [updateRecFields_user_id, updateRecFields_cycle]

/-- Replacing the first match by the value it already holds changes
nothing. -/
lemma upsertRow_self {p : Recommendation → Bool} {v : Recommendation} :
    ∀ {l : List Recommendation}, l.find? p = some v → upsertRow p v l = l := by
  intro l
  induction l with
  | nil => intro h; exact Option.noConfusion h
  | cons r rest ih =>
    intro h
    unfold upsertRow
    cases hp : p r with
    | true =>
      rw [List.find?_cons_of_pos _ hp] at h
      rw [if_pos rfl, Option.some.inj h]
    | false =>
      rw [List.find?_cons_of_neg _ (by simp [hp])] at h
      rw [if_neg (by simp), ih h]

/-- After an upsert, the first match holds the upserted value. -/
lemma find?_upsertRow {p : Recommendation → Bool} {v : Recommendation}
    (hv : p v = true) :
    ∀ l : List Recommendation, (upsertRow p v l).find? p = some v := by
  intro l
  induction l with
  | nil => simp [upsertRow, List.find?, hv]
  | cons r rest ih =>
    unfold upsertRow
    cases hp : p r with
    | true => rw [if_pos rfl]; exact List.find?_cons_of_pos _ hv
    | false =>
      rw [if_neg (by simp)]
      rw [List.find?_cons_of_neg _ (by simp [hp])]
      exact ih

/-- An upsert for one key does not change what another key's query
finds. -/
lemma find?_upsertRow_other {p q : Recommendation → Bool} {v : Recommendation}
    (hpq : ∀ r, p r = true → q r = false) (hv : q v = false) :
    ∀ l : List Recommendation, (upsertRow p v l).find? q = l.find? q := by
  intro l
  induction l with
  | nil => simp [upsertRow, List.find?, hv]
  | cons r rest ih =>
    unfold upsertRow
    cases hp : p r with
    | true =>
      rw [if_pos rfl]
      rw [List.find?_cons_of_neg _ (by simp [hv]),
        List.find?_cons_of_neg _ (by simp [hpq r hp])]
    | false =>
      rw [if_neg (by simp)]
      cases hq : q r with
      | true =>
        rw [List.find?_cons_of_pos _ hq, List.find?_cons_of_pos _ hq]
      | false =>
        rw [List.find?_cons_of_neg _ (by simp [hq]),
          List.find?_cons_of_neg _ (by simp [hq])]
        exact ih

/-- Replacing a found row by a row with the same key leaves the key
multiset (as a list) unchanged. -/
lemma upsertRow_map_key_found {p : Recommendation → Bool} {v : Recommendation}
    (hpkey : ∀ r, p r = true → recKey r = recKey v) :
    ∀ {l : List Recommendation} {r0 : Recommendation}, l.find? p = some r0 →
      (upsertRow p v l).map recKey = l.map recKey := by
  intro l
  induction l with
  | nil => intro r0 h; exact Option.noConfusion h
  | cons r rest ih =>
    intro r0 h
    unfold upsertRow
    cases hp : p r with
    | true =>
      rw [if_pos rfl]
      simp only [List.map_cons, hpkey r hp]
    | false =>
      rw [List.find?_cons_of_neg _ (by simp [hp])] at h
      rw [if_neg (by simp)]
      simp only [List.map_cons, ih h]

/-- When no row matches, the upsert appends one row with the new key. -/
lemma upsertRow_map_key_notfound {p : Recommendation → Bool} {v : Recommendation} :
    ∀ {l : List Recommendation}, l.find? p = none →
      (upsertRow p v l).map recKey = l.map recKey ++ [recKey v] := by
  intro l
  induction l with
  | nil => intro _; rfl
  | cons r rest ih =>
    intro h
    unfold upsertRow
    cases hp : p r with
    | true =>
      rw [List.find?_cons_of_pos _ hp] at h
      exact Option.noConfusion h
    | false =>
      rw [List.find?_cons_of_neg _ (by simp [hp])] at h
      rw [if_neg (by simp)]
      simp only [List.map_cons, ih h, List.cons_append]

/-- The key of a row never changes under the field assignments. -/
lemma recKey_updateRecFields (rb : Option ℕ) (g : ℕ) (a : GradeAllocation)
    (c : Candidate) (r : Recommendation) :
    recKey (updateRecFields rb g a c r) = recKey r := by
  unfold recKey
  rw [updateRecFields_user_id, updateRecFields_cycle]

/-- The store already holds, for this candidate's key, exactly the row the
candidate's upsert would write. -/
def IsFixedFor (cycle : String) (rb : Option ℕ) (g : ℕ) (a : GradeAllocation)
    (c : Candidate) (store : List Recommendation) : Prop :=
  ∃ r, store.find? (matchesKey c.user_id cycle) = some r ∧
    updateRecFields rb g a c r = r

/-- A candidate's upsert is the identity on a store already fixed for
it. -/
lemma upsertCandidate_of_isFixed {cycle : String} {rb : Option ℕ} {g : ℕ}
    {a : GradeAllocation} {c : Candidate} {store : List Recommendation}
    (hfix : IsFixedFor cycle rb g a c store) :
    upsertCandidate cycle rb g a store c = store := by
  obtain ⟨r, hf, hr⟩ := hfix
  unfold upsertCandidate
  simp only [hf]
  rw [hr]
  exact upsertRow_self hf

/-- After a candidate's upsert the store is fixed for that candidate. -/
lemma isFixed_upsertCandidate (cycle : String) (rb : Option ℕ) (g : ℕ)
    (a : GradeAllocation) (c : Candidate) (store : List Recommendation) :
    IsFixedFor cycle rb g a c (upsertCandidate cycle rb g a store c) := by
  unfold upsertCandidate
  cases hf : store.find? (matchesKey c.user_id cycle) with
  | some r0 =>
    simp only [hf]
    refine ⟨updateRecFields rb g a c r0, ?_, updateRecFields_idem _ _ _ _ _⟩
    apply find?_upsertRow
    rw [matchesKey_updateRecFields]
    exact List.find?_some hf
  | none =>
    simp only [hf]
    refine ⟨updateRecFields rb g a c
      { user_id := c.user_id, promotion_cycle := cycle, conraiss_grade := g },
      ?_, updateRecFields_idem _ _ _ _ _⟩
    apply find?_upsertRow
    rw [matchesKey_updateRecFields]
    simp [matchesKey]

/-- Upserting a candidate with a different user id does not change what
this candidate's key finds. -/
lemma find?_upsertCandidate_other {c c' : Candidate}
    (hne : c'.user_id ≠ c.user_id) (cycle : String) (rb : Option ℕ) (g' : ℕ)
    (a' : GradeAllocation) (store : List Recommendation) :
    (upsertCandidate cycle rb g' a' store c').find? (matchesKey c.user_id cycle) =
      store.find? (matchesKey c.user_id cycle) := by
  have hpq : ∀ r, matchesKey c'.user_id cycle r = true →
      matchesKey c.user_id cycle r = false := by
    intro r hr
    have h1 : r.user_id = c'.user_id := by
      have := (matchesKey_iff _ _ r).mp hr
      exact congrArg Prod.fst this
    simp [matchesKey, h1, hne]
  unfold upsertCandidate
  cases hfb : store.find? (matchesKey c'.user_id cycle) with
  | some r0 =>
    simp only [hfb]
    apply find?_upsertRow_other hpq
    rw [matchesKey_updateRecFields]
    exact hpq r0 (List.find?_some hfb)
  | none =>
    simp only [hfb]
    apply find?_upsertRow_other hpq
    rw [matchesKey_updateRecFields]
    simp [matchesKey, hne]

/-- Fixedness for one candidate survives the upsert of any candidate with
a different user id. -/
lemma isFixed_preserved {cycle : String} {rb : Option ℕ} {g : ℕ}
    {a : GradeAllocation} {c c' : Candidate} {g' : ℕ} {a' : GradeAllocation}
    {store : List Recommendation} (hne : c'.user_id ≠ c.user_id)
    (h : IsFixedFor cycle rb g a c store) :
    IsFixedFor cycle rb g a c (upsertCandidate cycle rb g' a' store c') := by
  obtain ⟨r, hf, hr⟩ := h
  exact ⟨r, by rw [find?_upsertCandidate_other hne]; exact hf, hr⟩

/-- The flattened iteration order of `generate_rrr_recommendations`: one
`(grade, allocation, candidate)` step per ranked candidate per grade. -/
def allocationSteps : List (ℕ × GradeAllocation) → List (ℕ × GradeAllocation × Candidate)
  | [] => []
  | ga :: rest =>
    ga.2.all_candidates.map (fun c => (ga.1, ga.2, c)) ++ allocationSteps rest

/-- Folding the per-candidate upsert over a flattened step list. -/
def runSteps (cycle : String) (rb : Option ℕ)
    (steps : List (ℕ × GradeAllocation × Candidate))
    (store : List Recommendation) : List Recommendation :=
  steps.foldl (fun st s => upsertCandidate cycle rb s.1 s.2.1 st s.2.2) store

/-- `generate_rrr_recommendations` is the fold of its flattened steps. -/
lemma generate_eq_runSteps (ar : List (ℕ × GradeAllocation)) (cycle : String)
    (rb : Option ℕ) : ∀ store,
    generate_rrr_recommendations ar cycle rb store =
      runSteps cycle rb (allocationSteps ar) store := by
  induction ar with
  | nil => intro store; rfl
  | cons ga rest ih =>
    intro store
    unfold generate_rrr_recommendations runSteps allocationSteps
    rw [List.foldl_cons, List.foldl_append, List.foldl_map]
    exact ih _

/-- Running steps over a store fixed for all of them is the identity. -/
lemma runSteps_of_fixed {cycle : String} {rb : Option ℕ} :
    ∀ (steps : List (ℕ × GradeAllocation × Candidate))
      (store : List Recommendation),
      (∀ s ∈ steps, IsFixedFor cycle rb s.1 s.2.1 s.2.2 store) →
      runSteps cycle rb steps store = store := by
  intro steps
  induction steps with
  | nil => intro store _; rfl
  | cons s rest ih =>
    intro store hall
    show runSteps cycle rb rest (upsertCandidate cycle rb s.1 s.2.1 store s.2.2) = store
    rw [upsertCandidate_of_isFixed (hall s (List.mem_cons_self s rest))]
    exact ih store (fun s' hs' => hall s' (List.mem_cons_of_mem _ hs'))

/-- Fixedness for a candidate survives a run of steps that never touch its
user id. -/
lemma isFixed_runSteps {cycle : String} {rb : Option ℕ} {g : ℕ}
    {a : GradeAllocation} {c : Candidate} :
    ∀ (steps : List (ℕ × GradeAllocation × Candidate))
      (store : List Recommendation),
      (∀ s ∈ steps, s.2.2.user_id ≠ c.user_id) →
      IsFixedFor cycle rb g a c store →
      IsFixedFor cycle rb g a c (runSteps cycle rb steps store) := by
  intro steps
  induction steps with
  | nil => intro store _ h; exact h
  | cons s rest ih =>
    intro store hall h
    show IsFixedFor cycle rb g a c
      (runSteps cycle rb rest (upsertCandidate cycle rb s.1 s.2.1 store s.2.2))
    exact ih _ (fun s' hs' => hall s' (List.mem_cons_of_mem _ hs'))
      (isFixed_preserved (hall s (List.mem_cons_self s rest)) h)

/-- After one full run with pairwise-distinct candidate user ids, the
store is fixed for every step. -/
lemma runSteps_establishes {cycle : String} {rb : Option ℕ} :
    ∀ (steps : List (ℕ × GradeAllocation × Candidate))
      (store : List Recommendation),
      (steps.map (fun s => s.2.2.user_id)).Nodup →
      ∀ s ∈ steps, IsFixedFor cycle rb s.1 s.2.1 s.2.2
        (runSteps cycle rb steps store) := by
  intro steps
  induction steps with
  | nil => intro store _ s hs; exact absurd hs (List.not_mem_nil s)
  | cons s0 rest ih =>
    intro store hnd s hs
    rw [List.map_cons, List.nodup_cons] at hnd
    rcases List.mem_cons.mp hs with rfl | hs'
    · show IsFixedFor cycle rb s.1 s.2.1 s.2.2
        (runSteps cycle rb rest (upsertCandidate cycle rb s.1 s.2.1 store s.2.2))
      apply isFixed_runSteps rest _ ?_ (isFixed_upsertCandidate _ _ _ _ _ _)
      intro s' hs' heq
      exact hnd.1 (List.mem_map.mpr ⟨s', hs', heq⟩)
    · exact ih _ hnd.2 s hs'

/-- Each upsert preserves duplicate-freedom of the `(user_id, cycle)` key
list: an existing key is updated in place, an absent key is appended
once. -/
lemma upsertCandidate_nodup_keys (cycle : String) (rb : Option ℕ) (g : ℕ)
    (a : GradeAllocation) (c : Candidate) (store : List Recommendation)
    (h : (store.map recKey).Nodup) :
    ((upsertCandidate cycle rb g a store c).map recKey).Nodup := by
  unfold upsertCandidate
  cases hf : store.find? (matchesKey c.user_id cycle) with
  | some r0 =>
    simp only [hf]
    rw [upsertRow_map_key_found ?_ hf]
    · exact h
    · intro r hr
      rw [(matchesKey_iff _ _ r).mp hr, recKey_updateRecFields,
        (matchesKey_iff _ _ r0).mp (List.find?_some hf)]
  | none =>
    simp only [hf]
    rw [upsertRow_map_key_notfound hf]
    rw [List.nodup_append]
    refine ⟨h, List.nodup_singleton _, ?_⟩
    intro k hk hk1
    rw [List.mem_singleton] at hk1
    obtain ⟨r, hrmem, hrk⟩ := List.mem_map.mp hk
    have hkv : recKey (updateRecFields rb g a c
        { user_id := c.user_id, promotion_cycle := cycle, conraiss_grade := g }) =
        (c.user_id, cycle) := by
      rw [recKey_updateRecFields]; rfl
    have : matchesKey c.user_id cycle r = true := by
      rw [matchesKey_iff, hrk, hk1, hkv]
    exact (List.find?_eq_none.mp hf r hrmem) this

/-- A run of upserts preserves duplicate-freedom of the key list. -/
lemma runSteps_nodup_keys {cycle : String} {rb : Option ℕ} :
    ∀ (steps : List (ℕ × GradeAllocation × Candidate))
      (store : List Recommendation),
      (store.map recKey).Nodup →
      ((runSteps cycle rb steps store).map recKey).Nodup := by
  intro steps
  induction steps with
  | nil => intro store h; exact h
  | cons s rest ih =>
    intro store h
    exact ih _ (upsertCandidate_nodup_keys _ _ _ _ _ _ h)

/-- C7: re-running the recommendation materialization for the same cycle
over unchanged allocation results (each employee ranked once) changes
nothing — the second run finds every `(candidate, cycle)` row it would
write already present with identical score, rank and allocation fields,
and updates it in place to the same value; and the run never introduces a
duplicate `(user_id, cycle)` key into a duplicate-free store (rows are
upserted, not re-inserted). -/
theorem C7_idempotent_upsert (ar : List (ℕ × GradeAllocation)) (cycle : String)
    (rb : Option ℕ) (store : List Recommendation)
    (hnd : ((allocationSteps ar).map (fun s => s.2.2.user_id)).Nodup) :
    generate_rrr_recommendations ar cycle rb
        (generate_rrr_recommendations ar cycle rb store) =
      generate_rrr_recommendations ar cycle rb store ∧
    ((store.map recKey).Nodup →
      ((generate_rrr_recommendations ar cycle rb store).map recKey).Nodup) := by
  constructor
  · rw [generate_eq_runSteps, generate_eq_runSteps]
    exact runSteps_of_fixed _ _ (fun s hs => runSteps_establishes _ store hnd s hs)
  · intro h
    rw [generate_eq_runSteps]
    exact runSteps_nodup_keys _ _ h

/-- A ranked candidate entry for employee 10 (rank 1, promoted). -/
def candA : Candidate :=
  { user_id := 10, exam_score := 80, pms_score := 50, seniority_score := 100,
    combined_score := 76, rank := 1 }

/-- A ranked candidate entry for employee 11 (rank 2, rewarded). -/
def candB : Candidate :=
  { user_id := 11, exam_score := 60, pms_score := 40, seniority_score := 0,
    combined_score := 46, rank := 2 }

/-- A grade-7 allocation: candidate A promoted, candidate B rewarded. -/
def allocG7 : GradeAllocation :=
  { total_candidates := 2, all_candidates := [candA, candB],
    promoted := [candA], recognized := [], rewarded := [candB] }

/-- Witness for C7: materializing the grade-7 allocation twice for cycle
"2024" from an empty store equals materializing it once, and the result
has duplicate-free keys. -/
theorem C7_idempotent_upsert_witness :
    generate_rrr_recommendations [(7, allocG7)] "2024" (some 1)
        (generate_rrr_recommendations [(7, allocG7)] "2024" (some 1) []) =
      generate_rrr_recommendations [(7, allocG7)] "2024" (some 1) [] ∧
    ((([] : List Recommendation).map recKey).Nodup →
      ((generate_rrr_recommendations [(7, allocG7)] "2024" (some 1) []).map
        recKey).Nodup) :=
  C7_idempotent_upsert [(7, allocG7)] "2024" (some 1) [] (by decide)

end NBTI
